import Mathlib

/-!
Verification of the frame-processing core in `src/vfp/_processor.py` of
waikato-datamining/video-frame-processor.

The Python module defines a `Processor` class that drives an OpenCV
`VideoCapture` source.  We embed its observable behaviour shallowly:

* `decode_fourcc`    — the module-level FOURCC decoder (lines 7-17);
* `check`            — `Processor._check` (lines 247-261);
* `retrieve_info`    — `Processor._retrieve_info` (lines 263-310);
* `runLoop`          — the read loop of `Processor.process` (lines 345-357);
* `process`/`query`  — `Processor.process` / `Processor.query`, producing a
  trace of observable events (the "Opening …" log, the open outcome, frame
  reads, busy-flag writes, frame-callback invocations, the max-frames log,
  the open-failure error log, `release()`, and the completion callback),
  together with the final `_stopped` flag;
* `processFull`/`queryFull` — the same entry points including the
  precondition check and selector handling (lines 322-332 / 376-386).

The capture device is modelled by `Source`: whether `isOpened()` holds, the
list of frames successive `read()` calls will yield, the property map
backing `get(...)`, and the playback position per frame.  The only effect
the frame-processing callback can have on the loop is calling
`Processor.stop()`; it is modelled by `stopReq : Nat → Bool`, the decision
the callback takes at each frame number.
-/

/-- Source selector: the `webcam_id` / `video_file` arguments of
`Processor.process` and `Processor.query`. -/
inductive Selector where
  | webcam (i : Int)
  | file (path : String)
deriving DecidableEq

/-- Observable events during a run of `process` or `query`. -/
inductive Event (α : Type) where
  /-- the "Opening file/webcam ..." INFO log plus the `cv2.VideoCapture(...)` call -/
  | opening (sel : Selector)
  /-- outcome of `video_capture.isOpened()` right after opening -/
  | openSrc (ok : Bool)
  /-- a successful `video_capture.read()`; `n` is the frame counter value after the read -/
  | readFrame (n : Nat)
  /-- an assignment to `self.is_processing_frames` -/
  | setBusy (b : Bool)
  /-- an invocation of `self.process_frame(self, frame, frame_no, pos_msec)` -/
  | callback (frame : α) (frameNo : Nat) (posMsec : Int)
  /-- the "Reached maximum number of frames" INFO log before breaking -/
  | maxReached
  /-- the "Failed to open video capture!" ERROR log -/
  | errorLog
  /-- the `video_capture.release()` call -/
  | release
  /-- an invocation of `self.processing_finished(self, video_capture_opened)` -/
  | finished (opened : Bool)
deriving DecidableEq

/-- The `cv2.CAP_PROP_*` property identifiers read by `_retrieve_info`
(plus `brightness`, which the module names but never reads). -/
inductive CapProp where
  | fps | frame_width | frame_height | fourcc
  | brightness | contrast | saturation | hue | gain | exposure
  | wb_temperature | gamma | temperature | zoom | focus | iso_speed
  | backlight | pan | tilt | roll | iris | autofocus | auto_exposure
  | sharpness | monochrome | sar_num | sar_den | auto_wb
  | frame_count | bitrate | codec_pixel_format | pos_msec
deriving DecidableEq

/-- Values stored in the info dictionary built by `_retrieve_info`:
raw numbers from `video_capture.get` or decoded FOURCC strings. -/
inductive InfoVal where
  | num (x : Int)
  | str (s : String)
deriving DecidableEq

/-- The filesystem facts `_check` consults via `os.path.exists` /
`os.path.isdir`. -/
structure FileSystem where
  pathExists : String → Bool
  isDir : String → Bool

/-- Model of a `cv2.VideoCapture` handle: whether it opened, the frames
successive `read()` calls yield, the `get(...)` property map, and the
`CAP_PROP_POS_MSEC` position after the n-th frame. -/
structure Source (α : Type) where
  opened : Bool
  frames : List α
  props : CapProp → Int
  pos : Nat → Int

/-- Configuration of a `Processor` as far as control flow depends on it:
`nth_frame`, `max_frames`, and whether the `process_frame` /
`processing_finished` callbacks are set. -/
structure Config where
  nth_frame : Nat
  max_frames : Int
  has_process_frame : Bool
  has_processing_finished : Bool

/-- FOURCC decoder `decode_fourcc` (lines 7-17): Python
`"".join([chr((int(cc) >> 8 * i) & 0xFF) for i in range(4)])`.
Python's `>>` floor-divides by a power of two (`Int.fdiv`) and `& 0xFF`
takes the always-non-negative remainder modulo 256 (`Int.emod`). -/
def decode_fourcc (cc : Int) : String :=
  String.mk ((List.range 4).map fun i =>
    Char.ofNat ((Int.fdiv cc ((2 : Int) ^ (8 * i)) % 256).toNat))

/-- Precondition check `Processor._check` (lines 247-261), with the raised
`Exception` messages as the error values. -/
def check (webcam_id : Option Int) (video_file : Option String)
    (has_process_frame : Bool) (fs : FileSystem) : Except String Unit :=
  if webcam_id.isNone && video_file.isNone then
    .error "Neither webcam ID nor video file supplied!"
  else
    match video_file with
    | some vf =>
      if !fs.pathExists vf then
        .error ("Video file does not exist: " ++ vf)
      else if fs.isDir vf then
        .error ("Video file points to directory: " ++ vf)
      else if !has_process_frame then
        .error "No method for processing frames supplied!"
      else .ok ()
    | none =>
      if !has_process_frame then
        .error "No method for processing frames supplied!"
      else .ok ()

/-- Which source gets opened (lines 327-332 / 381-386): the file branch is
taken whenever `video_file` is not `None`, else the webcam branch.  The
webcam branch is only reached with `webcam_id` set (ensured by `check`),
so the `getD 0` default is unreachable after a passing check. -/
def selectorOf (webcam_id : Option Int) (video_file : Option String) : Selector :=
  match video_file with
  | some vf => .file vf
  | none => .webcam (webcam_id.getD 0)

/-- Metadata retrieval `Processor._retrieve_info` (lines 263-310), as the
insertion-ordered key/value list of the Python dict.  Note line 280: the
`"brightness"` entry reads `cv2.CAP_PROP_CONTRAST`, not
`cv2.CAP_PROP_BRIGHTNESS`. -/
def retrieve_info (webcamSet : Bool) (get : CapProp → Int) : List (String × InfoVal) :=
  [("fps", .num (get .fps)),
   ("width", .num (get .frame_width)),
   ("height", .num (get .frame_height)),
   ("codec", .str (decode_fourcc (get .fourcc)))]
  ++ (if webcamSet then
      [("brightness", .num (get .contrast)),
       ("contrast", .num (get .contrast)),
       ("saturation", .num (get .saturation)),
       ("hue", .num (get .hue)),
       ("gain", .num (get .gain)),
       ("exposure", .num (get .exposure)),
       ("whitebalance", .num (get .wb_temperature)),
       ("gamma", .num (get .gamma)),
       ("temperature", .num (get .temperature)),
       ("zoom", .num (get .zoom)),
       ("focus", .num (get .focus)),
       ("iso_speed", .num (get .iso_speed)),
       ("backlight", .num (get .backlight)),
       ("pan", .num (get .pan)),
       ("tilt", .num (get .tilt)),
       ("roll", .num (get .roll)),
       ("iris", .num (get .iris)),
       ("auto_focus", .num (get .autofocus)),
       ("auto_exposure", .num (get .auto_exposure)),
       ("sharpness", .num (get .sharpness)),
       ("monochrome", .num (get .monochrome)),
       ("sample_aspect_ratio_num", .num (get .sar_num)),
       ("sample_aspect_ratio_den", .num (get .sar_den)),
       ("auto_white_balance", .num (get .auto_wb)),
       ("white_balance_temperature", .num (get .wb_temperature))]
     else
      [("frame_count", .num (get .frame_count)),
       ("bitrate", .num (get .bitrate)),
       ("pixel_format", .str (decode_fourcc (get .codec_pixel_format)))])

/-- Read loop of `Processor.process` (lines 345-357).  `frames` are the
reads still to come, `frame_no` the current counter, `stopped` the
`self._stopped` flag at the top of the iteration.  A fired callback sets
`is_processing_frames` true, runs, and the flag is set false right after;
whether the callback called `self.stop()` is `stopReq n`.  The loop breaks
on a failed read (`frames = []`), on `stopped`, and on
`max_frames > 0 ∧ frame_no ≥ max_frames`. -/
def runLoop (k : Nat) (maxF : Int) (stopReq : Nat → Bool) (pos : Nat → Int) :
    List α → Nat → Bool → List (Event α) × Bool
  | [], _, stopped => ([], stopped)
  | f :: rest, frame_no, stopped =>
    if stopped then ([], stopped)
    else
      let n := frame_no + 1
      if n % k == 0 then
        if 0 < maxF ∧ maxF ≤ (n : Int) then
          ([.readFrame n, .setBusy true, .callback f n (pos n), .setBusy false,
            .maxReached], stopReq n)
        else
          let r := runLoop k maxF stopReq pos rest n (stopReq n)
          (.readFrame n :: .setBusy true :: .callback f n (pos n) :: .setBusy false :: r.1,
           r.2)
      else
        if 0 < maxF ∧ maxF ≤ (n : Int) then
          ([.readFrame n, .maxReached], stopped)
        else
          let r := runLoop k maxF stopReq pos rest n stopped
          (.readFrame n :: r.1, r.2)

/-- Events of the `processing_finished` call at the end of `process`
(lines 361-362): one invocation when the callback is configured. -/
def finEvents (cfg : Config) (opened : Bool) : List (Event α) :=
  if cfg.has_processing_finished then [.finished opened] else []

/-- Body of `Processor.process` after `_check` (lines 327-362).
`init_stopped` is the `self._stopped` value left over from before the
call; line 322 overwrites it with `False` before anything else runs. -/
def process (cfg : Config) (sel : Selector) (src : Source α) (stopReq : Nat → Bool)
    (init_stopped : Bool) : List (Event α) × Bool :=
  let stopped0 := false
  if src.opened then
    let r := runLoop cfg.nth_frame cfg.max_frames stopReq src.pos src.frames 0 stopped0
    (.opening sel :: .openSrc true :: (r.1 ++ [.release] ++ finEvents cfg true), r.2)
  else
    (.opening sel :: .openSrc false :: .errorLog :: .release :: finEvents cfg false,
     stopped0)

/-- Body of `Processor.query` after `_check` (lines 381-397): open, either
retrieve the info dict or log an error and yield `None`, release, return.
`webcamSet` is whether `self._webcam_id` is not `None` (it decides the
branch inside `_retrieve_info`). -/
def query (webcamSet : Bool) (sel : Selector) (src : Source α) :
    List (Event α) × Option (List (String × InfoVal)) :=
  if src.opened then
    ([.opening sel, .openSrc true, .release], some (retrieve_info webcamSet src.props))
  else
    ([.opening sel, .openSrc false, .errorLog, .release], none)

/-- Full `Processor.process` (lines 312-362): reset `_stopped`, record the
selectors, run `_check` (propagating its error with nothing opened), then
the body.  `openf` models what `cv2.VideoCapture` yields per selector. -/
def processFull (cfg : Config) (fs : FileSystem) (openf : Selector → Source α)
    (webcam_id : Option Int) (video_file : Option String) (stopReq : Nat → Bool)
    (init_stopped : Bool) : Except String (List (Event α) × Bool) :=
  match check webcam_id video_file cfg.has_process_frame fs with
  | .error e => .error e
  | .ok _ =>
    .ok (process cfg (selectorOf webcam_id video_file)
          (openf (selectorOf webcam_id video_file)) stopReq init_stopped)

/-- Full `Processor.query` (lines 364-397). -/
def queryFull (cfg : Config) (fs : FileSystem) (openf : Selector → Source α)
    (webcam_id : Option Int) (video_file : Option String)
    (init_stopped : Bool) :
    Except String (List (Event α) × Option (List (String × InfoVal))) :=
  match check webcam_id video_file cfg.has_process_frame fs with
  | .error e => .error e
  | .ok _ =>
    .ok (query webcam_id.isSome (selectorOf webcam_id video_file)
          (openf (selectorOf webcam_id video_file)))

/-- Frame numbers passed to the frame-processing callback, in order. -/
def callbackFrames (evs : List (Event α)) : List Nat :=
  evs.filterMap fun e => match e with | .callback _ n _ => some n | _ => none

/-- Frame-counter values of the successful reads, in order. -/
def readFrames (evs : List (Event α)) : List Nat :=
  evs.filterMap fun e => match e with | .readFrame n => some n | _ => none

/-- Arguments passed to the `processing_finished` callback, in order. -/
def finishedFlags (evs : List (Event α)) : List Bool :=
  evs.filterMap fun e => match e with | .finished b => some b | _ => none

/-- Number of successful reads in a trace. -/
def countReads (evs : List (Event α)) : Nat :=
  (readFrames evs).length

/-- Number of frames read strictly after the first callback invocation
that requests a stop (0 when no callback requests one). -/
def readsAfterStop (stopReq : Nat → Bool) : List (Event α) → Nat
  | [] => 0
  | .callback _ n _ :: rest =>
    if stopReq n then countReads rest else readsAfterStop stopReq rest
  | _ :: rest => readsAfterStop stopReq rest

/-- Whether some callback invocation in the trace requests a stop. -/
def anyStopCb (stopReq : Nat → Bool) (evs : List (Event α)) : Bool :=
  evs.any fun e => match e with | .callback _ n _ => stopReq n | _ => false

/-- The `is_processing_frames` flag after replaying the trace from
initial value `b`. -/
def busyAfter (b : Bool) (evs : List (Event α)) : Bool :=
  evs.foldl (fun acc e => match e with | .setBusy b' => b' | _ => acc) b

/-- Whether the event at this trace position lies inside the synchronous
extent of a frame-callback invocation: the invocation itself or the
busy-flag reset that ends it. -/
def insideCallback : Option (Event α) → Bool
  | some (.callback _ _ _) => true
  | some (.setBusy false) => true
  | _ => false

/-- Busy-flag discipline of a trace: whenever the replayed
`is_processing_frames` flag reads true after `p` events, the event at
position `p` still belongs to the synchronous extent of a frame-callback
invocation. -/
def busyPointsOk (l : List (Event α)) : Prop :=
  ∀ p, busyAfter false (l.take p) = true → insideCallback (l.get? p) = true

/-- A frame callback that never calls `stop()`. -/
def neverStop : Nat → Bool := fun _ => false

/-- Number of frames the read loop consumes when the callback never stops
it: all `F` remaining frames, capped by `max_frames - frame_no` when a
positive `max_frames` is set. -/
def loopReads (maxF : Int) (F n0 : Nat) : Nat :=
  if 0 < maxF then min F (maxF.toNat - n0) else F

/-- Concrete filesystem where every path is an existing regular file. -/
def fsPlain : FileSystem := ⟨fun _ => true, fun _ => false⟩

/-- Concrete filesystem where no path exists. -/
def fsMissing : FileSystem := ⟨fun _ => false, fun _ => false⟩

/-- Concrete filesystem where every path is an existing directory. -/
def fsDirAll : FileSystem := ⟨fun _ => true, fun _ => true⟩

/-- Concrete source that opens and yields ten frames. -/
def srcTen : Source Unit := ⟨true, List.replicate 10 (), fun _ => 0, fun _ => 0⟩

/-- Concrete source that fails to open. -/
def srcClosed : Source Unit := ⟨false, [], fun _ => 0, fun _ => 0⟩

/-- Opening any selector yields the ten-frame source. -/
def openAll : Selector → Source Unit := fun _ => srcTen

/-- Opening any selector yields the unopened source. -/
def openNone : Selector → Source Unit := fun _ => srcClosed

/-- Little-endian packing of four ASCII bytes into an integer, as the
spec's round-trip sentence describes it: the first character occupies the
least-significant byte. -/
def fourcc_pack (c0 c1 c2 c3 : Char) : Int :=
  ((c0.toNat + 256 * c1.toNat + 65536 * c2.toNat + 16777216 * c3.toNat : Nat) : Int)

/-- Unfolding of `decode_fourcc` into its four characters. -/
theorem decode_fourcc_def (cc : Int) :
    decode_fourcc cc =
      String.mk [Char.ofNat ((Int.fdiv cc 1 % 256).toNat),
                 Char.ofNat ((Int.fdiv cc 256 % 256).toNat),
                 Char.ofNat ((Int.fdiv cc 65536 % 256).toNat),
                 Char.ofNat ((Int.fdiv cc 16777216 % 256).toNat)] := by
  norm_num [decode_fourcc, List.range_succ]

/-- C7: for every string of four ASCII characters, packing its bytes into
an integer little-endian (first character in the least-significant byte)
and applying `decode_fourcc` returns the original four characters. -/
theorem claim7_fourcc_roundtrip (c0 c1 c2 c3 : Char)
    (h0 : c0.toNat < 128) (h1 : c1.toNat < 128)
    (h2 : c2.toNat < 128) (h3 : c3.toNat < 128) :
    decode_fourcc (fourcc_pack c0 c1 c2 c3) = String.mk [c0, c1, c2, c3] := by
  have e0 : (Int.fdiv (fourcc_pack c0 c1 c2 c3) 1 % 256).toNat = c0.toNat := by
    rw [Int.fdiv_eq_ediv _ (by norm_num)]
    simp only [fourcc_pack]
    omega
  have e1 : (Int.fdiv (fourcc_pack c0 c1 c2 c3) 256 % 256).toNat = c1.toNat := by
    rw [Int.fdiv_eq_ediv _ (by norm_num)]
    simp only [fourcc_pack]
    omega
  have e2 : (Int.fdiv (fourcc_pack c0 c1 c2 c3) 65536 % 256).toNat = c2.toNat := by
    rw [Int.fdiv_eq_ediv _ (by norm_num)]
    simp only [fourcc_pack]
    omega
  have e3 : (Int.fdiv (fourcc_pack c0 c1 c2 c3) 16777216 % 256).toNat = c3.toNat := by
    rw [Int.fdiv_eq_ediv _ (by norm_num)]
    simp only [fourcc_pack]
    omega
  rw [decode_fourcc_def, e0, e1, e2, e3,
      Char.ofNat_toNat, Char.ofNat_toNat, Char.ofNat_toNat, Char.ofNat_toNat]

/-- Witness for C7 at the concrete codec string "MJPG". -/
theorem claim7_fourcc_roundtrip_witness :
    decode_fourcc (fourcc_pack 'M' 'J' 'P' 'G') = String.mk ['M', 'J', 'P', 'G'] :=
  claim7_fourcc_roundtrip 'M' 'J' 'P' 'G' (by decide) (by decide) (by decide) (by decide)

/-- Device property map on which the brightness and contrast controls
report different values. -/
def bugProps : CapProp → Int
  | .brightness => 1
  | .contrast => 2
  | _ => 0

/-- C8 (code bug, line 280): on a live device whose brightness property is
1 and whose contrast property is 2, `_retrieve_info` stores 2 — the
contrast value — under the "brightness" key, because the code reads
`cv2.CAP_PROP_CONTRAST` for that entry. -/
theorem claim8_brightness_mismatch :
    (retrieve_info true bugProps).lookup "brightness" = some (.num 2)
    ∧ bugProps .brightness = 1
    ∧ (retrieve_info true bugProps).lookup "brightness"
        ≠ some (.num (bugProps .brightness)) := by
  refine ⟨rfl, rfl, ?_⟩
  decide

/-- C3 counterexample: with both selectors non-null and a valid file path,
`_check` raises nothing, although the claim lists "both source selectors
non-null" among the cases that raise a ConfigurationError. -/
theorem claim3_both_selectors_ok :
    check (some 0) (some "clip.mp4") true fsPlain = .ok () := rfl

/-- C3 (amended): `_check` raises for each of these four cases
independently — both selectors null, a file path that does not exist, a
file path naming a directory, a null frame callback — and in `process`
and `query` a check failure propagates to the caller with no resource
opened.  Both selectors non-null is not an error (the file selector takes
precedence). -/
theorem claim3_check_amended :
    (∀ (hpf : Bool) (fs : FileSystem),
        check none none hpf fs = .error "Neither webcam ID nor video file supplied!")
    ∧ (∀ (w : Option Int) (vf : String) (hpf : Bool) (fs : FileSystem),
        fs.pathExists vf = false →
        check w (some vf) hpf fs = .error ("Video file does not exist: " ++ vf))
    ∧ (∀ (w : Option Int) (vf : String) (hpf : Bool) (fs : FileSystem),
        fs.pathExists vf = true → fs.isDir vf = true →
        check w (some vf) hpf fs = .error ("Video file points to directory: " ++ vf))
    ∧ (∀ (i : Int) (fs : FileSystem),
        check (some i) none false fs = .error "No method for processing frames supplied!")
    ∧ (∀ (α : Type) (cfg : Config) (fs : FileSystem) (openf : Selector → Source α)
        (w : Option Int) (vf : Option String) (stopReq : Nat → Bool) (init : Bool)
        (e : String),
        check w vf cfg.has_process_frame fs = .error e →
        processFull cfg fs openf w vf stopReq init = .error e)
    ∧ (∀ (α : Type) (cfg : Config) (fs : FileSystem) (openf : Selector → Source α)
        (w : Option Int) (vf : Option String) (init : Bool) (e : String),
        check w vf cfg.has_process_frame fs = .error e →
        queryFull cfg fs openf w vf init = .error e) := by
  refine ⟨fun hpf fs => rfl, ?_, ?_, fun i fs => rfl, ?_, ?_⟩
  · intro w vf hpf fs h
    simp [check, h]
  · intro w vf hpf fs h1 h2
    simp [check, h1, h2]
  · intro α cfg fs openf w vf stopReq init e h
    simp only [processFull, h]
  · intro α cfg fs openf w vf init e h
    simp only [queryFull, h]

/-- Witness for C3 (amended): each error case and the propagation, at
concrete inputs. -/
theorem claim3_check_amended_witness :
    check none none true fsPlain = .error "Neither webcam ID nor video file supplied!"
    ∧ check (some 0) (some "a.mp4") true fsMissing = .error "Video file does not exist: a.mp4"
    ∧ check (some 0) (some "d") true fsDirAll = .error "Video file points to directory: d"
    ∧ check (some 0) none false fsPlain = .error "No method for processing frames supplied!"
    ∧ processFull ⟨1, -1, true, true⟩ fsPlain openAll none none neverStop false
        = .error "Neither webcam ID nor video file supplied!"
    ∧ queryFull ⟨1, -1, true, true⟩ fsPlain openAll none none false
        = .error "Neither webcam ID nor video file supplied!" :=
  ⟨claim3_check_amended.1 true fsPlain,
   claim3_check_amended.2.1 (some 0) "a.mp4" true fsMissing rfl,
   claim3_check_amended.2.2.1 (some 0) "d" true fsDirAll rfl rfl,
   claim3_check_amended.2.2.2.1 0 fsPlain,
   claim3_check_amended.2.2.2.2.1 Unit ⟨1, -1, true, true⟩ fsPlain openAll none none
     neverStop false _ rfl,
   claim3_check_amended.2.2.2.2.2 Unit ⟨1, -1, true, true⟩ fsPlain openAll none none
     false _ rfl⟩

/-- C4: on a source that fails to open, the completion callback (when
configured) is invoked exactly once with `sourceOpened = false`, the frame
callback is invoked zero times, and the handle is released before the
completion callback fires. -/
theorem claim4_open_failure {α : Type} (cfg : Config) (sel : Selector) (src : Source α)
    (stopReq : Nat → Bool) (init : Bool)
    (hfin : cfg.has_processing_finished = true) (hopen : src.opened = false) :
    finishedFlags (process cfg sel src stopReq init).1 = [false]
    ∧ callbackFrames (process cfg sel src stopReq init).1 = []
    ∧ ∃ i j, i < j
        ∧ (process cfg sel src stopReq init).1.get? i = some .release
        ∧ (process cfg sel src stopReq init).1.get? j = some (.finished false) := by
  simp only [process, hopen, Bool.false_eq_true, if_false, finEvents, hfin, if_true]
  refine ⟨rfl, rfl, 3, 4, by norm_num, rfl, rfl⟩

/-- Witness for C4 at a concrete unopened source. -/
theorem claim4_open_failure_witness :
    finishedFlags (process ⟨1, -1, true, true⟩ (.file "v") srcClosed neverStop false).1 = [false]
    ∧ callbackFrames (process ⟨1, -1, true, true⟩ (.file "v") srcClosed neverStop false).1 = []
    ∧ ∃ i j, i < j
        ∧ (process ⟨1, -1, true, true⟩ (.file "v") srcClosed neverStop false).1.get? i
            = some .release
        ∧ (process ⟨1, -1, true, true⟩ (.file "v") srcClosed neverStop false).1.get? j
            = some (.finished false) :=
  claim4_open_failure _ _ _ _ _ rfl rfl

/-- C10: when both a webcam index and a video file are passed and the file
passes the filesystem checks, `process` and `query` proceed without error,
the file selector is the one opened, and the webcam index is ignored. -/
theorem claim10_file_precedence {α : Type} (cfg : Config) (fs : FileSystem)
    (openf : Selector → Source α) (w : Int) (vf : String) (stopReq : Nat → Bool)
    (init : Bool) (hpf : cfg.has_process_frame = true)
    (hex : fs.pathExists vf = true) (hdir : fs.isDir vf = false) :
    processFull cfg fs openf (some w) (some vf) stopReq init
      = .ok (process cfg (.file vf) (openf (.file vf)) stopReq init)
    ∧ (process cfg (.file vf) (openf (.file vf)) stopReq init).1.head?
      = some (.opening (.file vf))
    ∧ queryFull cfg fs openf (some w) (some vf) init
      = .ok (query true (.file vf) (openf (.file vf)))
    ∧ (query true (.file vf) (openf (.file vf))).1.head?
      = some (.opening (.file vf)) := by
  have hc : check (some w) (some vf) cfg.has_process_frame fs = .ok () := by
    simp [check, hex, hdir, hpf]
  refine ⟨?_, ?_, ?_, ?_⟩
  · simp only [processFull, hc, selectorOf]
  · cases h : (openf (.file vf)).opened <;> simp [process, h]
  · simp only [queryFull, hc, selectorOf, Option.isSome]
  · cases h : (openf (.file vf)).opened <;> simp [query, h]

/-- Witness for C10 at concrete inputs. -/
theorem claim10_file_precedence_witness :
    processFull ⟨1, -1, true, true⟩ fsPlain openAll (some 3) (some "v.mp4") neverStop false
      = .ok (process ⟨1, -1, true, true⟩ (.file "v.mp4") (openAll (.file "v.mp4")) neverStop false)
    ∧ (process ⟨1, -1, true, true⟩ (.file "v.mp4") (openAll (.file "v.mp4")) neverStop false).1.head?
      = some (.opening (.file "v.mp4"))
    ∧ queryFull ⟨1, -1, true, true⟩ fsPlain openAll (some 3) (some "v.mp4") false
      = .ok (query true (.file "v.mp4") (openAll (.file "v.mp4")))
    ∧ (query true (.file "v.mp4") (openAll (.file "v.mp4"))).1.head?
      = some (.opening (.file "v.mp4")) :=
  claim10_file_precedence ⟨1, -1, true, true⟩ fsPlain openAll 3 "v.mp4" neverStop false
    rfl rfl rfl

/-- Shifting a `List.range` enumeration by one position. -/
theorem range_map_shift (R n0 : Nat) :
    (List.range (R + 1)).map (fun j => n0 + j + 1)
      = (n0 + 1) :: (List.range R).map (fun j => (n0 + 1) + j + 1) := by
  rw [List.range_succ_eq_map, List.map_cons, List.map_map]
  congr 1
  exact List.map_congr_left fun a _ => by simp [Function.comp]; omega

/-- The frame numbers `1..F` that are multiples of `k` are exactly
`k, 2k, ..., (F/k)*k`. -/
theorem filter_mod_eq_multiples (k : Nat) (hk : 1 ≤ k) :
    ∀ F : Nat, ((List.range F).map (fun j => j + 1)).filter (fun n => n % k == 0)
      = (List.range (F / k)).map (fun i => (i + 1) * k)
  | 0 => by simp
  | F + 1 => by
    rw [List.range_succ, List.map_append, List.filter_append,
        filter_mod_eq_multiples k hk F]
    by_cases hd : (F + 1) % k = 0
    · have hdvd : k ∣ F + 1 := Nat.dvd_of_mod_eq_zero hd
      have hdiv : (F + 1) / k = F / k + 1 := by
        rw [Nat.succ_div, if_pos hdvd]
      rw [hdiv, List.range_succ, List.map_append]
      simp only [List.map_cons, List.map_nil, List.filter_cons, List.filter_nil]
      have : ((F + 1) % k == 0) = true := by simp [hd]
      rw [this]
      have hmul : (F / k + 1) * k = F + 1 := by
        have h2 := Nat.div_mul_cancel hdvd
        rw [hdiv] at h2
        exact h2
      simp [hmul]
    · have hndvd : ¬ k ∣ F + 1 := fun h => hd (Nat.mod_eq_zero_of_dvd h)
      have hdiv : (F + 1) / k = F / k := by
        rw [Nat.succ_div, if_neg hndvd]
        omega
      have : ((F + 1) % k == 0) = false := by simp [hd]
      simp [hdiv, this]

/-- Characterization of the read loop when the callback never requests a
stop: starting at counter `n0` (with `n0 < max_frames` whenever the cap is
positive), the loop reads frames `n0+1, ..., n0+R` with
`R = loopReads max_frames frames.length n0`, fires the callback exactly at
the frame numbers divisible by `nth_frame`, and leaves `_stopped` false. -/
theorem runLoop_noStop {α : Type} (k : Nat) (maxF : Int) (pos : Nat → Int) :
    ∀ (frames : List α) (n0 : Nat), (0 < maxF → (n0 : Int) < maxF) →
    readFrames (runLoop k maxF neverStop pos frames n0 false).1
      = (List.range (loopReads maxF frames.length n0)).map (fun j => n0 + j + 1)
    ∧ callbackFrames (runLoop k maxF neverStop pos frames n0 false).1
      = ((List.range (loopReads maxF frames.length n0)).map (fun j => n0 + j + 1)).filter
          (fun n => n % k == 0)
    ∧ (runLoop k maxF neverStop pos frames n0 false).2 = false
  | [], n0, hn0 => by
    have h0 : loopReads maxF 0 n0 = 0 := by
      unfold loopReads
      split <;> omega
    simp [runLoop, readFrames, callbackFrames, h0]
  | f :: rest, n0, hn0 => by
    by_cases hmax : 0 < maxF ∧ maxF ≤ (n0 : Int) + 1
    · have hR1 : loopReads maxF (f :: rest).length n0 = 1 := by
        have hlt := hn0 hmax.1
        have hle := hmax.2
        unfold loopReads
        rw [if_pos hmax.1]
        simp only [List.length_cons]
        omega
      rw [hR1]
      by_cases hcb : (n0 + 1) % k = 0
      · have hb : ((n0 + 1) % k == 0) = true := by simp [hcb]
        simp [runLoop, hb, hmax, readFrames, callbackFrames, neverStop,
              List.range_succ, List.filter]
      · have hb : ((n0 + 1) % k == 0) = false := by simp [hcb]
        simp [runLoop, hb, hmax, readFrames, callbackFrames, neverStop,
              List.range_succ, List.filter]
    · have hmax1 : 0 < maxF → ((n0 + 1 : Nat) : Int) < maxF := fun h => by omega
      obtain ⟨ihr, ihc, ihs⟩ := runLoop_noStop k maxF pos rest (n0 + 1) hmax1
      have hR : loopReads maxF (f :: rest).length n0
          = loopReads maxF rest.length (n0 + 1) + 1 := by
        unfold loopReads
        simp only [List.length_cons]
        split
        · have hlt := hn0 (by assumption)
          omega
        · omega
      rw [hR, range_map_shift]
      simp only [readFrames, callbackFrames] at ihr ihc
      by_cases hcb : (n0 + 1) % k = 0
      · have hb : ((n0 + 1) % k == 0) = true := by simp [hcb]
        simp [runLoop, hb, hmax, readFrames, callbackFrames, neverStop, ihr, ihc, ihs,
              List.filter_cons]
      · have hb : ((n0 + 1) % k == 0) = false := by simp [hcb]
        simp [runLoop, hb, hmax, readFrames, callbackFrames, neverStop, ihr, ihc, ihs,
              List.filter_cons]

/-- The read loop never invokes the completion callback. -/
theorem runLoop_no_finished {α : Type} (k : Nat) (maxF : Int) (stopReq : Nat → Bool)
    (pos : Nat → Int) :
    ∀ (frames : List α) (n0 : Nat) (st : Bool),
    finishedFlags (runLoop k maxF stopReq pos frames n0 st).1 = []
  | [], n0, st => by simp [runLoop, finishedFlags]
  | f :: rest, n0, st => by
    by_cases hst : st
    · simp [runLoop, hst, finishedFlags]
    · have ih1 := runLoop_no_finished k maxF stopReq pos rest (n0 + 1) (stopReq (n0 + 1))
      have ih2 := runLoop_no_finished k maxF stopReq pos rest (n0 + 1) st
      simp only [finishedFlags] at ih1 ih2
      simp only [runLoop, if_neg hst]
      split <;> split <;> simp [finishedFlags, ih1, ih2]

/-- On a source that opens, the `process` trace is the open preamble, the
loop trace, the release, and the completion events. -/
theorem trace_process_open {α : Type} (cfg : Config) (sel : Selector) (src : Source α)
    (stopReq : Nat → Bool) (init : Bool) (ho : src.opened = true) :
    (process cfg sel src stopReq init).1
      = .opening sel :: .openSrc true ::
        ((runLoop cfg.nth_frame cfg.max_frames stopReq src.pos src.frames 0 false).1
          ++ [.release] ++ finEvents cfg true) := by
  simp [process, ho]

/-- Callback invocations of a successful `process` run are those of the
read loop. -/
theorem callbackFrames_process_open {α : Type} (cfg : Config) (sel : Selector)
    (src : Source α) (stopReq : Nat → Bool) (init : Bool) (ho : src.opened = true) :
    callbackFrames (process cfg sel src stopReq init).1
      = callbackFrames
          (runLoop cfg.nth_frame cfg.max_frames stopReq src.pos src.frames 0 false).1 := by
  cases hf : cfg.has_processing_finished <;>
    simp [process, ho, callbackFrames, finEvents, hf, List.filterMap_append]

/-- Frame reads of a successful `process` run are those of the read loop. -/
theorem readFrames_process_open {α : Type} (cfg : Config) (sel : Selector)
    (src : Source α) (stopReq : Nat → Bool) (init : Bool) (ho : src.opened = true) :
    readFrames (process cfg sel src stopReq init).1
      = readFrames
          (runLoop cfg.nth_frame cfg.max_frames stopReq src.pos src.frames 0 false).1 := by
  cases hf : cfg.has_processing_finished <;>
    simp [process, ho, readFrames, finEvents, hf, List.filterMap_append]

/-- On a successful `process` run the completion callback fires exactly
once, with `sourceOpened = true`, when configured. -/
theorem finishedFlags_process_open {α : Type} (cfg : Config) (sel : Selector)
    (src : Source α) (stopReq : Nat → Bool) (init : Bool) (ho : src.opened = true) :
    finishedFlags (process cfg sel src stopReq init).1
      = (if cfg.has_processing_finished then [true] else []) := by
  have h0 := runLoop_no_finished cfg.nth_frame cfg.max_frames stopReq src.pos src.frames 0 false
  simp only [finishedFlags] at h0
  cases hf : cfg.has_processing_finished <;>
    simp [process, ho, finishedFlags, finEvents, hf, List.filterMap_append, h0]

/-- C2: with a positive `sampleStride = k`, no max-frame cap
(`max_frames ≤ 0`) and no stop request, the frame callback is invoked
exactly `⌊F / k⌋` times on an `F`-frame source, and the i-th invocation
receives frame number `i * k`. -/
theorem claim2_sampling_exact {α : Type} (cfg : Config) (sel : Selector) (src : Source α)
    (init : Bool) (hk : 1 ≤ cfg.nth_frame) (hm : cfg.max_frames ≤ 0)
    (ho : src.opened = true) :
    callbackFrames (process cfg sel src neverStop init).1
      = (List.range (src.frames.length / cfg.nth_frame)).map (fun i => (i + 1) * cfg.nth_frame)
    ∧ (callbackFrames (process cfg sel src neverStop init).1).length
      = src.frames.length / cfg.nth_frame := by
  have hn0 : 0 < cfg.max_frames → ((0 : Nat) : Int) < cfg.max_frames := by omega
  obtain ⟨hr, hc, hs⟩ :=
    runLoop_noStop cfg.nth_frame cfg.max_frames src.pos src.frames 0 hn0
  have hLR : loopReads cfg.max_frames src.frames.length 0 = src.frames.length := by
    unfold loopReads
    rw [if_neg (by omega)]
  have hmap : (List.range src.frames.length).map (fun j => 0 + j + 1)
      = (List.range src.frames.length).map (fun j => j + 1) :=
    List.map_congr_left fun a _ => by omega
  rw [hLR, hmap] at hc
  have hmain : callbackFrames (process cfg sel src neverStop init).1
      = (List.range (src.frames.length / cfg.nth_frame)).map
          (fun i => (i + 1) * cfg.nth_frame) := by
    rw [callbackFrames_process_open cfg sel src neverStop init ho, hc,
        filter_mod_eq_multiples cfg.nth_frame hk src.frames.length]
  refine ⟨hmain, ?_⟩
  rw [hmain]
  simp

/-- Witness for C2: stride 2, no cap, on the concrete ten-frame source. -/
theorem claim2_sampling_exact_witness :
    callbackFrames (process ⟨2, -1, true, true⟩ (Selector.file "ten.mp4") srcTen neverStop false).1
      = (List.range (srcTen.frames.length / 2)).map (fun i => (i + 1) * 2)
    ∧ (callbackFrames (process ⟨2, -1, true, true⟩ (Selector.file "ten.mp4") srcTen neverStop false).1).length
      = srcTen.frames.length / 2 :=
  claim2_sampling_exact ⟨2, -1, true, true⟩ (Selector.file "ten.mp4") srcTen false
    (by decide) (by decide) rfl

/-- C1 counterexample: with `sampleStride = 2` and `maxFrames = 3` on a
ten-frame source, the callback is invoked only at frame number 2 — not at
frame numbers 2, 4 and 6 as the claim's example states — because the loop
breaks once the frame counter (frames read), not the invocation count,
reaches `max_frames`. -/
theorem claim1_example_false :
    callbackFrames (process ⟨2, 3, true, true⟩ (Selector.file "ten.mp4") srcTen neverStop false).1
      ≠ [2, 4, 6]
    ∧ callbackFrames (process ⟨2, 3, true, true⟩ (Selector.file "ten.mp4") srcTen neverStop false).1
      = [2] := by
  refine ⟨?_, rfl⟩
  decide

/-- C1 (amended): with `maxFrames = m > 0`, `sampleStride = k ≥ 1` and no
stop request, the loop reads frames `1..min F m` — terminating as soon as
the frame counter (frames read, not callback invocations) reaches `m` —
the callback fires exactly at the multiples of `k` among them (hence at
most `m` invocations), and the completion callback then fires once with
`sourceOpened = true`; in the example (`k = 2`, `m = 3`, ten frames) the
callback is invoked exactly once, at frame number 2. -/
theorem claim1_max_frames_amended {α : Type} (cfg : Config) (sel : Selector)
    (src : Source α) (init : Bool) (hk : 1 ≤ cfg.nth_frame)
    (hm : 0 < cfg.max_frames) (ho : src.opened = true) :
    readFrames (process cfg sel src neverStop init).1
      = (List.range (min src.frames.length cfg.max_frames.toNat)).map (fun j => j + 1)
    ∧ callbackFrames (process cfg sel src neverStop init).1
      = (List.range (min src.frames.length cfg.max_frames.toNat / cfg.nth_frame)).map
          (fun i => (i + 1) * cfg.nth_frame)
    ∧ (callbackFrames (process cfg sel src neverStop init).1).length
        ≤ cfg.max_frames.toNat
    ∧ finishedFlags (process cfg sel src neverStop init).1
      = (if cfg.has_processing_finished then [true] else [])
    ∧ callbackFrames (process ⟨2, 3, true, true⟩ (Selector.file "ten.mp4") srcTen neverStop false).1
      = [2]
    ∧ finishedFlags (process ⟨2, 3, true, true⟩ (Selector.file "ten.mp4") srcTen neverStop false).1
      = [true] := by
  have hn0 : 0 < cfg.max_frames → ((0 : Nat) : Int) < cfg.max_frames := by omega
  obtain ⟨hr, hc, hs⟩ :=
    runLoop_noStop cfg.nth_frame cfg.max_frames src.pos src.frames 0 hn0
  have hLR : loopReads cfg.max_frames src.frames.length 0
      = min src.frames.length cfg.max_frames.toNat := by
    unfold loopReads
    rw [if_pos hm]
    omega
  have hmap : ∀ R : Nat, (List.range R).map (fun j => 0 + j + 1)
      = (List.range R).map (fun j => j + 1) :=
    fun R => List.map_congr_left fun a _ => by omega
  rw [hLR, hmap] at hr hc
  have hread : readFrames (process cfg sel src neverStop init).1
      = (List.range (min src.frames.length cfg.max_frames.toNat)).map (fun j => j + 1) := by
    rw [readFrames_process_open cfg sel src neverStop init ho, hr]
  have hcb : callbackFrames (process cfg sel src neverStop init).1
      = (List.range (min src.frames.length cfg.max_frames.toNat / cfg.nth_frame)).map
          (fun i => (i + 1) * cfg.nth_frame) := by
    rw [callbackFrames_process_open cfg sel src neverStop init ho, hc,
        filter_mod_eq_multiples cfg.nth_frame hk]
  refine ⟨hread, hcb, ?_, finishedFlags_process_open cfg sel src neverStop init ho,
          by decide, by decide⟩
  rw [hcb]
  simp only [List.length_map, List.length_range]
  have h1 := Nat.div_le_self (min src.frames.length cfg.max_frames.toNat) cfg.nth_frame
  omega

/-- Witness for C1 (amended) at stride 2, cap 3, on the ten-frame source. -/
theorem claim1_max_frames_amended_witness :
    readFrames (process ⟨2, 3, true, true⟩ (Selector.file "ten.mp4") srcTen neverStop false).1
      = (List.range (min srcTen.frames.length (Int.toNat 3))).map (fun j => j + 1)
    ∧ callbackFrames (process ⟨2, 3, true, true⟩ (Selector.file "ten.mp4") srcTen neverStop false).1
      = (List.range (min srcTen.frames.length (Int.toNat 3) / 2)).map (fun i => (i + 1) * 2)
    ∧ (callbackFrames (process ⟨2, 3, true, true⟩ (Selector.file "ten.mp4") srcTen neverStop false).1).length
        ≤ Int.toNat 3
    ∧ finishedFlags (process ⟨2, 3, true, true⟩ (Selector.file "ten.mp4") srcTen neverStop false).1
      = (if true then [true] else [])
    ∧ callbackFrames (process ⟨2, 3, true, true⟩ (Selector.file "ten.mp4") srcTen neverStop false).1
      = [2]
    ∧ finishedFlags (process ⟨2, 3, true, true⟩ (Selector.file "ten.mp4") srcTen neverStop false).1
      = [true] :=
  claim1_max_frames_amended ⟨2, 3, true, true⟩ (Selector.file "ten.mp4") srcTen false
    (by decide) (by decide) rfl

/-- A loop started in the stopped state reads nothing. -/
theorem runLoop_from_stopped {α : Type} (k : Nat) (maxF : Int) (stopReq : Nat → Bool)
    (pos : Nat → Int) (frames : List α) (n0 : Nat) :
    runLoop k maxF stopReq pos frames n0 true = ([], true) := by
  cases frames <;> simp [runLoop]

/-- After the first callback invocation that requests a stop, the read
loop reads no further frame (also with any read-free suffix appended). -/
theorem readsAfterStop_runLoop {α : Type} (k : Nat) (maxF : Int) (stopReq : Nat → Bool)
    (pos : Nat → Int) :
    ∀ (frames : List α) (n0 : Nat) (st : Bool) (suffix : List (Event α)),
    readsAfterStop stopReq suffix = 0 → countReads suffix = 0 →
    readsAfterStop stopReq ((runLoop k maxF stopReq pos frames n0 st).1 ++ suffix) = 0
  | [], n0, st, suffix, hra, hcr => by simpa [runLoop] using hra
  | f :: rest, n0, st, suffix, hra, hcr => by
    by_cases hst : st
    · simpa [runLoop, hst] using hra
    · simp only [runLoop, if_neg hst]
      by_cases hcb : (n0 + 1) % k == 0
      · rw [if_pos hcb]
        by_cases hmax : 0 < maxF ∧ maxF ≤ (n0 : Int) + 1
        · rw [if_pos (by push_cast; omega)]
          cases hstop : stopReq (n0 + 1) <;>
            simp [readsAfterStop, hstop, hra, countReads, readFrames,
                  List.filterMap_append] <;>
            simpa [countReads, readFrames] using hcr
        · rw [if_neg (by push_cast; omega)]
          cases hstop : stopReq (n0 + 1)
          · have ih := readsAfterStop_runLoop k maxF stopReq pos rest (n0 + 1) false suffix
              hra hcr
            simpa [readsAfterStop, hstop] using ih
          · simp [readsAfterStop, hstop, runLoop_from_stopped, countReads, readFrames]
            simpa [countReads, readFrames] using hcr
      · rw [if_neg hcb]
        by_cases hmax : 0 < maxF ∧ maxF ≤ (n0 : Int) + 1
        · rw [if_pos (by push_cast; omega)]
          simpa [readsAfterStop] using hra
        · rw [if_neg (by push_cast; omega)]
          have ih := readsAfterStop_runLoop k maxF stopReq pos rest (n0 + 1) st suffix
            hra hcr
          simpa [readsAfterStop, hst] using ih

/-- Unfolding of one loop iteration from the non-stopped state. -/
theorem runLoop_cons_not_stopped {α : Type} (k : Nat) (maxF : Int) (stopReq : Nat → Bool)
    (pos : Nat → Int) (f : α) (rest : List α) (n0 : Nat) :
    runLoop k maxF stopReq pos (f :: rest) n0 false
      = if (n0 + 1) % k == 0 then
          if 0 < maxF ∧ maxF ≤ ((n0 + 1 : Nat) : Int) then
            ([.readFrame (n0 + 1), .setBusy true, .callback f (n0 + 1) (pos (n0 + 1)),
              .setBusy false, .maxReached], stopReq (n0 + 1))
          else
            ((.readFrame (n0 + 1) :: .setBusy true :: .callback f (n0 + 1) (pos (n0 + 1)) ::
              .setBusy false :: (runLoop k maxF stopReq pos rest (n0 + 1) (stopReq (n0 + 1))).1),
             (runLoop k maxF stopReq pos rest (n0 + 1) (stopReq (n0 + 1))).2)
        else
          if 0 < maxF ∧ maxF ≤ ((n0 + 1 : Nat) : Int) then
            ([.readFrame (n0 + 1), .maxReached], false)
          else
            ((.readFrame (n0 + 1) :: (runLoop k maxF stopReq pos rest (n0 + 1) false).1),
             (runLoop k maxF stopReq pos rest (n0 + 1) false).2) := by
  simp [runLoop]

/-- If some callback invocation of the loop requested a stop, the loop
ends with `_stopped = true`. -/
theorem anyStopCb_runLoop {α : Type} (k : Nat) (maxF : Int) (stopReq : Nat → Bool)
    (pos : Nat → Int) :
    ∀ (frames : List α) (n0 : Nat),
    anyStopCb stopReq (runLoop k maxF stopReq pos frames n0 false).1 = true →
    (runLoop k maxF stopReq pos frames n0 false).2 = true
  | [], n0, h => by simp [runLoop, anyStopCb] at h
  | f :: rest, n0, h => by
    rw [runLoop_cons_not_stopped] at h ⊢
    by_cases hcb : ((n0 + 1) % k == 0) = true
    · rw [if_pos hcb] at h ⊢
      by_cases hmax : 0 < maxF ∧ maxF ≤ ((n0 + 1 : Nat) : Int)
      · rw [if_pos hmax] at h ⊢
        simpa [anyStopCb] using h
      · rw [if_neg hmax] at h ⊢
        cases hstop : stopReq (n0 + 1)
        · simp only [hstop] at h ⊢
          refine anyStopCb_runLoop k maxF stopReq pos rest (n0 + 1) ?_
          simpa [anyStopCb, hstop] using h
        · simp [hstop, runLoop_from_stopped]
    · rw [if_neg hcb] at h ⊢
      by_cases hmax : 0 < maxF ∧ maxF ≤ ((n0 + 1 : Nat) : Int)
      · rw [if_pos hmax] at h
        simp [anyStopCb] at h
      · rw [if_neg hmax] at h ⊢
        exact anyStopCb_runLoop k maxF stopReq pos rest (n0 + 1)
          (by simpa [anyStopCb] using h)

/-- C6: if the frame callback calls `stop()` during a `process` run, no
further frame is read after that callback returns and the run terminates
with `is_stopped` true; and both `process` and `query` reset `_stopped`
to false at the start of the next call (their outcome does not depend on
the flag left over from the previous run). -/
theorem claim6_stop_terminates {α : Type} (cfg : Config) (sel : Selector) (src : Source α)
    (stopReq : Nat → Bool) (init : Bool) (hk : 1 ≤ cfg.nth_frame) :
    readsAfterStop stopReq (process cfg sel src stopReq init).1 = 0
    ∧ (anyStopCb stopReq (process cfg sel src stopReq init).1 = true →
        (process cfg sel src stopReq init).2 = true)
    ∧ process cfg sel src stopReq init = process cfg sel src stopReq false
    ∧ (∀ (fs : FileSystem) (openf : Selector → Source α) (w : Option Int)
        (vf : Option String),
        queryFull cfg fs openf w vf init = queryFull cfg fs openf w vf false) := by
  refine ⟨?_, ?_, rfl, fun fs openf w vf => rfl⟩
  · cases ho : src.opened
    · cases hf : cfg.has_processing_finished <;>
        simp [process, ho, readsAfterStop, finEvents, hf]
    · rw [trace_process_open cfg sel src stopReq init ho]
      simp only [readsAfterStop]
      rw [List.append_assoc]
      refine readsAfterStop_runLoop cfg.nth_frame cfg.max_frames stopReq src.pos
        src.frames 0 false ([Event.release] ++ finEvents cfg true) ?_ ?_
      · cases hf : cfg.has_processing_finished <;>
          simp [readsAfterStop, finEvents, hf]
      · cases hf : cfg.has_processing_finished <;>
          simp [countReads, readFrames, finEvents, hf]
  · intro h
    cases ho : src.opened
    · cases hf : cfg.has_processing_finished <;>
        simp [process, ho, anyStopCb, finEvents, hf] at h
    · have hco : anyStopCb stopReq (process cfg sel src stopReq init).1
          = anyStopCb stopReq
              (runLoop cfg.nth_frame cfg.max_frames stopReq src.pos src.frames 0 false).1 := by
        cases hf : cfg.has_processing_finished <;>
          simp [trace_process_open cfg sel src stopReq init ho, anyStopCb, finEvents, hf,
                List.any_append]
      rw [hco] at h
      have hs := anyStopCb_runLoop cfg.nth_frame cfg.max_frames stopReq src.pos
        src.frames 0 h
      simpa [process, ho] using hs

/-- Witness for C6: every frame fires the callback and the callback at
frame 3 requests a stop, on the concrete ten-frame source. -/
theorem claim6_stop_terminates_witness :
    readsAfterStop (fun n => n == 3)
        (process ⟨1, -1, true, true⟩ (Selector.file "ten.mp4") srcTen (fun n => n == 3) false).1
      = 0
    ∧ (anyStopCb (fun n => n == 3)
          (process ⟨1, -1, true, true⟩ (Selector.file "ten.mp4") srcTen (fun n => n == 3) false).1
        = true →
        (process ⟨1, -1, true, true⟩ (Selector.file "ten.mp4") srcTen (fun n => n == 3) false).2
          = true)
    ∧ process ⟨1, -1, true, true⟩ (Selector.file "ten.mp4") srcTen (fun n => n == 3) false
      = process ⟨1, -1, true, true⟩ (Selector.file "ten.mp4") srcTen (fun n => n == 3) false
    ∧ (∀ (fs : FileSystem) (openf : Selector → Source Unit) (w : Option Int)
        (vf : Option String),
        queryFull ⟨1, -1, true, true⟩ fs openf w vf false
          = queryFull ⟨1, -1, true, true⟩ fs openf w vf false) :=
  claim6_stop_terminates ⟨1, -1, true, true⟩ (Selector.file "ten.mp4") srcTen
    (fun n => n == 3) false (by decide)

/-- Keys of the info dictionary for a live device, in insertion order. -/
theorem retrieve_info_keys_webcam (g : CapProp → Int) :
    (retrieve_info true g).map Prod.fst
      = ["fps", "width", "height", "codec", "brightness", "contrast", "saturation", "hue",
         "gain", "exposure", "whitebalance", "gamma", "temperature", "zoom", "focus",
         "iso_speed", "backlight", "pan", "tilt", "roll", "iris", "auto_focus",
         "auto_exposure", "sharpness", "monochrome", "sample_aspect_ratio_num",
         "sample_aspect_ratio_den", "auto_white_balance", "white_balance_temperature"] := rfl

/-- Keys of the info dictionary for a file-backed source, in insertion
order. -/
theorem retrieve_info_keys_file (g : CapProp → Int) :
    (retrieve_info false g).map Prod.fst
      = ["fps", "width", "height", "codec", "frame_count", "bitrate", "pixel_format"] := rfl

/-- C5: `query` on a source that opens returns the info mapping, which
contains at least the keys fps, width, height and codec, and for a
file-backed source (`webcam_id` absent) additionally frame_count, bitrate
and pixel_format; on a source that fails to open it logs an ERROR and
returns null; in both cases the handle is released last, and neither the
frame callback, the completion callback nor the busy flag is touched. -/
theorem claim5_query_behavior {α : Type} (webcamSet : Bool) (sel : Selector)
    (src : Source α) :
    (src.opened = true →
      (query webcamSet sel src).2 = some (retrieve_info webcamSet src.props)
      ∧ "fps" ∈ (retrieve_info webcamSet src.props).map Prod.fst
      ∧ "width" ∈ (retrieve_info webcamSet src.props).map Prod.fst
      ∧ "height" ∈ (retrieve_info webcamSet src.props).map Prod.fst
      ∧ "codec" ∈ (retrieve_info webcamSet src.props).map Prod.fst
      ∧ (webcamSet = false →
          "frame_count" ∈ (retrieve_info webcamSet src.props).map Prod.fst
          ∧ "bitrate" ∈ (retrieve_info webcamSet src.props).map Prod.fst
          ∧ "pixel_format" ∈ (retrieve_info webcamSet src.props).map Prod.fst))
    ∧ (src.opened = false →
        (query webcamSet sel src).2 = none
        ∧ Event.errorLog ∈ (query webcamSet sel src).1)
    ∧ (query webcamSet sel src).1.getLast? = some .release
    ∧ callbackFrames (query webcamSet sel src).1 = []
    ∧ finishedFlags (query webcamSet sel src).1 = []
    ∧ (∀ b : Bool, Event.setBusy b ∉ (query webcamSet sel src).1) := by
  refine ⟨?_, ?_, ?_, ?_, ?_, ?_⟩
  · intro ho
    cases webcamSet
    · refine ⟨by simp [query, ho], ?_, ?_, ?_, ?_, fun _ => ⟨?_, ?_, ?_⟩⟩ <;>
        rw [retrieve_info_keys_file] <;> decide
    · refine ⟨by simp [query, ho], ?_, ?_, ?_, ?_, fun hws => by simp at hws⟩ <;>
        rw [retrieve_info_keys_webcam] <;> decide
  · intro ho
    exact ⟨by simp [query, ho], by simp [query, ho]⟩
  · cases ho : src.opened <;> simp [query, ho]
  · cases ho : src.opened <;> simp [query, ho, callbackFrames]
  · cases ho : src.opened <;> simp [query, ho, finishedFlags]
  · intro b
    cases ho : src.opened <;> simp [query, ho]

/-- Witness for C5: a file-backed query on the opened ten-frame source and
one on the unopened source. -/
theorem claim5_query_behavior_witness :
    ((query false (Selector.file "q.mp4") srcTen).2
        = some (retrieve_info false srcTen.props)
      ∧ "fps" ∈ (retrieve_info false srcTen.props).map Prod.fst
      ∧ "width" ∈ (retrieve_info false srcTen.props).map Prod.fst
      ∧ "height" ∈ (retrieve_info false srcTen.props).map Prod.fst
      ∧ "codec" ∈ (retrieve_info false srcTen.props).map Prod.fst
      ∧ (false = false →
          "frame_count" ∈ (retrieve_info false srcTen.props).map Prod.fst
          ∧ "bitrate" ∈ (retrieve_info false srcTen.props).map Prod.fst
          ∧ "pixel_format" ∈ (retrieve_info false srcTen.props).map Prod.fst))
    ∧ ((query false (Selector.file "q.mp4") srcClosed).2 = none
        ∧ Event.errorLog ∈ (query false (Selector.file "q.mp4") srcClosed).1) :=
  ⟨(claim5_query_behavior false (Selector.file "q.mp4") srcTen).1 rfl,
   (claim5_query_behavior false (Selector.file "q.mp4") srcClosed).2.1 rfl⟩

/-- Replaying the loop trace leaves the busy flag as the suffix leaves it:
every `setBusy true` in the loop is closed by the `setBusy false` right
after the callback. -/
theorem busyAfter_runLoop {α : Type} (k : Nat) (maxF : Int) (stopReq : Nat → Bool)
    (pos : Nat → Int) :
    ∀ (frames : List α) (n0 : Nat) (st : Bool) (suffix : List (Event α)),
    busyAfter false ((runLoop k maxF stopReq pos frames n0 st).1 ++ suffix)
      = busyAfter false suffix
  | [], _, _, _ => by simp [runLoop]
  | f :: rest, n0, true, suffix => by simp [runLoop]
  | f :: rest, n0, false, suffix => by
    rw [runLoop_cons_not_stopped]
    by_cases hcb : ((n0 + 1) % k == 0) = true
    · rw [if_pos hcb]
      by_cases hmax : 0 < maxF ∧ maxF ≤ ((n0 + 1 : Nat) : Int)
      · rw [if_pos hmax]
        rfl
      · rw [if_neg hmax]
        exact busyAfter_runLoop k maxF stopReq pos rest (n0 + 1) (stopReq (n0 + 1)) suffix
    · rw [if_neg hcb]
      by_cases hmax : 0 < maxF ∧ maxF ≤ ((n0 + 1 : Nat) : Int)
      · rw [if_pos hmax]
        rfl
      · rw [if_neg hmax]
        exact busyAfter_runLoop k maxF stopReq pos rest (n0 + 1) false suffix

/-- The empty trace has the busy-points discipline. -/
theorem busyPointsOk_nil {α : Type} : busyPointsOk ([] : List (Event α)) := by
  intro p h
  simp [busyAfter] at h

/-- Prepending an event that does not raise the busy flag preserves the
busy-points discipline. -/
theorem busyPointsOk_cons {α : Type} (e : Event α) (l : List (Event α))
    (he : busyAfter false [e] = false) (hl : busyPointsOk l) :
    busyPointsOk (e :: l) := by
  intro p h
  match p with
  | 0 =>
    rw [List.take_zero] at h
    exact absurd h (by simp [busyAfter])
  | q + 1 =>
    rw [List.take_succ_cons] at h
    have hstep : busyAfter false (e :: List.take q l)
        = busyAfter (busyAfter false [e]) (List.take q l) := rfl
    rw [hstep, he] at h
    simpa using hl q h

/-- Prepending a complete busy segment — `setBusy true`, the callback,
`setBusy false` — preserves the busy-points discipline. -/
theorem busyPointsOk_seg {α : Type} (f : α) (n : Nat) (pms : Int) (l : List (Event α))
    (hl : busyPointsOk l) :
    busyPointsOk (.setBusy true :: .callback f n pms :: .setBusy false :: l) := by
  intro p h
  match p with
  | 0 =>
    rw [List.take_zero] at h
    exact absurd h (by simp [busyAfter])
  | 1 => simp [insideCallback]
  | 2 => simp [insideCallback]
  | q + 3 =>
    have h2 : busyAfter false (List.take q l) = true := by
      simpa [List.take_succ_cons, busyAfter] using h
    simpa using hl q h2

/-- The loop trace followed by a well-disciplined suffix has the
busy-points discipline. -/
theorem busyPointsOk_runLoop {α : Type} (k : Nat) (maxF : Int) (stopReq : Nat → Bool)
    (pos : Nat → Int) :
    ∀ (frames : List α) (n0 : Nat) (st : Bool) (suffix : List (Event α)),
    busyPointsOk suffix →
    busyPointsOk ((runLoop k maxF stopReq pos frames n0 st).1 ++ suffix)
  | [], _, _, suffix, hs => by simpa [runLoop] using hs
  | f :: rest, n0, true, suffix, hs => by simpa [runLoop] using hs
  | f :: rest, n0, false, suffix, hs => by
    rw [runLoop_cons_not_stopped]
    by_cases hcb : ((n0 + 1) % k == 0) = true
    · rw [if_pos hcb]
      by_cases hmax : 0 < maxF ∧ maxF ≤ ((n0 + 1 : Nat) : Int)
      · rw [if_pos hmax]
        simp only [List.cons_append, List.nil_append]
        exact busyPointsOk_cons _ _ rfl
          (busyPointsOk_seg _ _ _ _ (busyPointsOk_cons _ _ rfl hs))
      · rw [if_neg hmax]
        simp only [List.cons_append]
        exact busyPointsOk_cons _ _ rfl (busyPointsOk_seg _ _ _ _
          (busyPointsOk_runLoop k maxF stopReq pos rest (n0 + 1) (stopReq (n0 + 1)) suffix hs))
    · rw [if_neg hcb]
      by_cases hmax : 0 < maxF ∧ maxF ≤ ((n0 + 1 : Nat) : Int)
      · rw [if_pos hmax]
        simp only [List.cons_append, List.nil_append]
        exact busyPointsOk_cons _ _ rfl (busyPointsOk_cons _ _ rfl hs)
      · rw [if_neg hmax]
        simp only [List.cons_append]
        exact busyPointsOk_cons _ _ rfl
          (busyPointsOk_runLoop k maxF stopReq pos rest (n0 + 1) false suffix hs)

/-- C9: during any run of `process`, the busy flag `is_processing_frames`
(replayed over the trace from its quiescent false value) reads true only
at points lying inside the synchronous extent of a frame-callback
invocation; it is false once `process` returns — also on the open-failure
and stop paths — and a `query` run never raises it. -/
theorem claim9_busy_flag {α : Type} (cfg : Config) (sel : Selector) (src : Source α)
    (stopReq : Nat → Bool) (init : Bool) :
    busyAfter false (process cfg sel src stopReq init).1 = false
    ∧ (∀ p, busyAfter false ((process cfg sel src stopReq init).1.take p) = true →
        insideCallback ((process cfg sel src stopReq init).1.get? p) = true)
    ∧ (∀ (webcamSet : Bool) (sel2 : Selector) (src2 : Source α),
        busyAfter false (query webcamSet sel2 src2).1 = false) := by
  refine ⟨?_, ?_, ?_⟩
  · cases ho : src.opened
    · cases hf : cfg.has_processing_finished <;>
        simp [process, ho, finEvents, hf, busyAfter]
    · rw [trace_process_open cfg sel src stopReq init ho, List.append_assoc]
      have h1 : busyAfter false (Event.opening sel :: Event.openSrc true ::
          ((runLoop cfg.nth_frame cfg.max_frames stopReq src.pos src.frames 0 false).1
            ++ ([Event.release] ++ finEvents cfg true)))
          = busyAfter false
              ((runLoop cfg.nth_frame cfg.max_frames stopReq src.pos src.frames 0 false).1
                ++ ([Event.release] ++ finEvents cfg true)) := rfl
      rw [h1, busyAfter_runLoop]
      cases hf : cfg.has_processing_finished <;> simp [finEvents, hf, busyAfter]
  · have hok : busyPointsOk (process cfg sel src stopReq init).1 := by
      cases ho : src.opened
      · cases hf : cfg.has_processing_finished <;>
          simp only [process, ho, Bool.false_eq_true, if_false, finEvents, hf, if_true,
                     List.cons_append, List.nil_append]
        · exact busyPointsOk_cons _ _ rfl (busyPointsOk_cons _ _ rfl
            (busyPointsOk_cons _ _ rfl (busyPointsOk_cons _ _ rfl busyPointsOk_nil)))
        · exact busyPointsOk_cons _ _ rfl (busyPointsOk_cons _ _ rfl
            (busyPointsOk_cons _ _ rfl (busyPointsOk_cons _ _ rfl
              (busyPointsOk_cons _ _ rfl busyPointsOk_nil))))
      · rw [trace_process_open cfg sel src stopReq init ho, List.append_assoc]
        refine busyPointsOk_cons _ _ rfl (busyPointsOk_cons _ _ rfl ?_)
        refine busyPointsOk_runLoop cfg.nth_frame cfg.max_frames stopReq src.pos
          src.frames 0 false _ ?_
        cases hf : cfg.has_processing_finished <;> simp only [finEvents, hf, if_true,
          Bool.false_eq_true, if_false, List.cons_append, List.nil_append]
        · exact busyPointsOk_cons _ _ rfl busyPointsOk_nil
        · exact busyPointsOk_cons _ _ rfl (busyPointsOk_cons _ _ rfl busyPointsOk_nil)
    exact hok
  · intro webcamSet sel2 src2
    cases ho : src2.opened <;> simp [query, ho, busyAfter]

/-- Witness for C9: in a concrete run the point after `setBusy true` lies
inside the callback extent, and the final busy flag is false. -/
theorem claim9_busy_flag_witness :
    insideCallback
        ((process ⟨1, -1, true, true⟩ (Selector.file "ten.mp4") srcTen neverStop false).1.get? 4)
      = true
    ∧ busyAfter false
        (process ⟨1, -1, true, true⟩ (Selector.file "ten.mp4") srcTen neverStop false).1
      = false :=
  ⟨(claim9_busy_flag ⟨1, -1, true, true⟩ (Selector.file "ten.mp4") srcTen neverStop false).2.1
      4 (by decide),
   (claim9_busy_flag ⟨1, -1, true, true⟩ (Selector.file "ten.mp4") srcTen neverStop false).1⟩
